import Mathlib

/-!
Shallow embedding of `src/main.py` (daily/yearly retail KPI report automation).

Tabular data (pandas DataFrames) is modelled as Lean lists of records; the
pandas group-by/merge pipeline of `main` is modelled as association lists keyed
by `store_id`.  Numeric cell values (quantity, unit price, revenue) are
modelled as rationals.  External side effects (Outlook, the filesystem, the
process environment) are modelled as explicit parameters and event lists.
-/

namespace IndicatorAutomation

/-! ## Generic list/association-list helpers used by the pandas model -/

/-- Lexicographic comparison of strings by code point, modelling Python's
`str` ordering as used by pandas `groupby(sort=True)` key sorting. -/
def strLeB : List Char → List Char → Bool
  | [], _ => true
  | _ :: _, [] => false
  | a :: as, b :: bs =>
    if a.toNat < b.toNat then true
    else if b.toNat < a.toNat then false
    else strLeB as bs

/-- The string ordering as a relation, for `List.insertionSort`. -/
def strRel (a b : String) : Prop := strLeB a.data b.data = true

instance : DecidableRel strRel := fun a b => by unfold strRel; infer_instance

/-- The distinct group keys produced by a pandas `groupby(sort=True)`:
first occurrences, then sorted ascending. -/
def groupKeys (xs : List String) : List String := List.insertionSort strRel xs.dedup

/-- Inner merge of two association lists on their key (pandas
`left.merge(right, on=key)` for key-unique frames): left row order is kept,
rows whose key is absent from the right table are dropped. -/
def mergeInner {α β : Type} (xs : List (String × α)) (ys : List (String × β)) :
    List (String × α × β) :=
  xs.filterMap fun p => (List.lookup p.1 ys).map fun b => (p.1, p.2, b)

/-! ## Data model (spec section 3) -/

/-- A calendar date, as carried by the `date` column after `pd.to_datetime`. -/
structure Date where
  year : ℕ
  month : ℕ
  day : ℕ
deriving DecidableEq, Repr

/-- Timestamp comparison `date <= yesterday` (lexicographic on y/m/d). -/
def dateLeB (a b : Date) : Bool :=
  if a.year ≠ b.year then a.year < b.year
  else if a.month ≠ b.month then a.month < b.month
  else a.day ≤ b.day

/-- One row of the sales table (`sales.xlsx` after column standardisation). -/
structure SaleLine where
  sales_code : String
  date : Date
  store_id : String
  product_id : String
  quantity : ℚ
  unit_price : ℚ
deriving DecidableEq, Repr

/-- One row of the products reference table. -/
structure Product where
  product_id : String
  product_name : String
deriving DecidableEq, Repr

/-- One row of the stores reference table. -/
structure Store where
  store_id : String
  store_name : String
deriving DecidableEq, Repr

/-- One row of the recipients table (`emails.xlsx`), including the sentinel
`store_id == "BOARD"` row. -/
structure EmailRow where
  store_id : String
  manager : String
  email : String
deriving DecidableEq, Repr

/-! ## Period filters (main.py lines 204-209) -/

/-- `daily_sales_df = sales_df[sales_df['date'] == pd.Timestamp(yesterday_date)]`. -/
def dailyFilter (yesterday : Date) (sales : List SaleLine) : List SaleLine :=
  sales.filter fun l => l.date = yesterday

/-- `yearly_sales_df = sales_df[(date.dt.year == current_year) & (date <= yesterday)]`
where `current_year = yesterday_date.year`. -/
def yearlyFilter (yesterday : Date) (sales : List SaleLine) : List SaleLine :=
  sales.filter fun l => l.date.year = yesterday.year && dateLeB l.date yesterday

/-! ## KPI aggregation (main.py lines 211-254) -/

/-- The column set kept after `sales.merge(products_df, on='product_id')`
followed by the projection
`[['sales_code', 'date', 'store_id', 'quantity', 'unit_price']]`. -/
structure MergedLine where
  sales_code : String
  date : Date
  store_id : String
  quantity : ℚ
  unit_price : ℚ
deriving DecidableEq, Repr

/-- `sales.merge(products_df, on='product_id')` then the column projection:
an inner join, keeping one copy of a sale line per matching product row,
in left (sales) row order. -/
def mergeProducts (sales : List SaleLine) (products : List Product) : List MergedLine :=
  sales.flatMap fun l =>
    (products.filter fun p => p.product_id = l.product_id).map fun _ =>
      { sales_code := l.sales_code, date := l.date, store_id := l.store_id,
        quantity := l.quantity, unit_price := l.unit_price }

/-- Lines 214-216 / 219-221: `merged['revenue'] = quantity * unit_price` then
`merged.groupby('store_id')['revenue'].sum().reset_index()`. -/
def revenue_df (sales : List SaleLine) (products : List Product) : List (String × ℚ) :=
  let merged := mergeProducts sales products
  (groupKeys (merged.map (·.store_id))).map fun s =>
    (s, ((merged.filter fun m => m.store_id = s).map fun m => m.quantity * m.unit_price).sum)

/-- Lines 226 / 229: `sales.groupby('store_id')['product_id'].nunique()` —
computed on the UNMERGED period sales table. -/
def distinct_products_df (sales : List SaleLine) : List (String × ℕ) :=
  (groupKeys (sales.map (·.store_id))).map fun s =>
    (s, ((sales.filter fun l => l.store_id = s).map (·.product_id)).dedup.length)

/-- Lines 234 / 239: `sales.groupby('store_id')['sales_code'].nunique()` —
also computed on the UNMERGED period sales table. -/
def distinct_sales_df (sales : List SaleLine) : List (String × ℕ) :=
  (groupKeys (sales.map (·.store_id))).map fun s =>
    (s, ((sales.filter fun l => l.store_id = s).map (·.sales_code)).dedup.length)

/-- Lines 235-236 / 240-241: `revenue_df.merge(distinct_sales_df, on='store_id')`
then `avg_ticket = revenue / distinct_sales`.  Value layout per store:
(revenue, distinct_sales, avg_ticket). -/
def avg_ticket_df (sales : List SaleLine) (products : List Product) :
    List (String × ℚ × ℕ × ℚ) :=
  (mergeInner (revenue_df sales products) (distinct_sales_df sales)).map fun p =>
    (p.1, p.2.1, p.2.2, p.2.1 / (p.2.2 : ℚ))

/-- Lines 246-247 / 250-251: `revenue.merge(distinct_products).merge(avg_ticket[['store_id','avg_ticket']])`.
Value layout per store: ((revenue, distinct_products), avg_ticket). -/
def kpis_df (sales : List SaleLine) (products : List Product) :
    List (String × (ℚ × ℕ) × ℚ) :=
  mergeInner (mergeInner (revenue_df sales products) (distinct_products_df sales))
    ((avg_ticket_df sales products).map fun p => (p.1, p.2.2.2))

/-- Line 254: `all_kpis_df = daily_kpis_df.merge(yearly_kpis_df, on='store_id', suffixes=('_daily','_yearly'))`:
an inner join of the two per-period KPI tables. -/
def all_kpis_df (daily_sales yearly_sales : List SaleLine) (products : List Product) :
    List (String × ((ℚ × ℕ) × ℚ) × ((ℚ × ℕ) × ℚ)) :=
  mergeInner (kpis_df daily_sales products) (kpis_df yearly_sales products)

/-! ## Ranking extraction (main.py lines 102-118) -/

/-- One row of the table handed to `get_ranking_info`
(`revenue_df.merge(stores_df, on='store_id')`). -/
structure RankRow where
  store_id : String
  store_name : String
  revenue : ℚ
deriving DecidableEq, Repr

instance : Inhabited RankRow := ⟨⟨"", "", 0⟩⟩

/-- Ordering by the `revenue` column. -/
def revLe (a b : RankRow) : Prop := a.revenue ≤ b.revenue

instance : DecidableRel revLe := fun a b => by unfold revLe; infer_instance

instance : IsTotal RankRow revLe := ⟨fun a b => le_total a.revenue b.revenue⟩

instance : IsTrans RankRow revLe := ⟨fun _ _ _ h1 h2 => le_trans h1 h2⟩

/-- `df.sort_values(by='revenue', ascending=False)`.  pandas `nargsort`
handles `ascending=False` by reversing the rows, arg-sorting ascending with
the chosen kind, and reversing the result again.  The kernel here is a stable
insertion sort, which coincides with the source's default `kind='quicksort'`
(numpy introsort) ONLY on frames of at most 16 rows, where numpy runs its
insertion sort; on larger frames numpy's quicksort is not stable, so the tie
order of this model is exact only for small frames and no theorem in this
development asserts tie stability of the program in general. -/
def sort_values_desc (df : List RankRow) : List RankRow :=
  (List.insertionSort revLe df.reverse).reverse

/-- Function `get_ranking_info` (column fixed to `'revenue'` as at both call
sites): sorts descending and extracts best (`iloc[0]`) and worst (`iloc[-1]`)
store name and value.  `iloc` on an empty frame raises in the source; the model
returns a junk default row in that case. -/
def get_ranking_info (df : List RankRow) : List RankRow × String × ℚ × String × ℚ :=
  let sorted_df := sort_values_desc df
  (sorted_df, (sorted_df.headD default).store_name, (sorted_df.headD default).revenue,
    (sorted_df.getLastD default).store_name, (sorted_df.getLastD default).revenue)

/-! ## Report renderer (main.py lines 19-29, 36-100) -/

/-- Financial target triple (global dicts `DAILY_TARGETS` / `YEARLY_TARGETS`). -/
structure Targets where
  revenue : ℚ
  distinct_products : ℚ
  avg_ticket : ℚ
deriving DecidableEq, Repr

def DAILY_TARGETS : Targets := ⟨1000, 4, 500⟩

def YEARLY_TARGETS : Targets := ⟨1650000, 120, 500⟩

/-- One KPI dictionary `{'name': .., 'value': .., 'target': .., 'type': ..}`. -/
structure Kpi where
  name : String
  value : ℚ
  target : ℚ
  type : String
deriving DecidableEq, Repr

/-- Function `construct_kpi_list`: the three KPI dictionaries for one period,
built from the period's row values. -/
def construct_kpi_list (revenue distinct_products avg_ticket : ℚ) (targets : Targets) :
    List Kpi :=
  [⟨"Revenue", revenue, targets.revenue, "currency"⟩,
   ⟨"Distinct Products", distinct_products, targets.distinct_products, "integer"⟩,
   ⟨"Avg Ticket", avg_ticket, targets.avg_ticket, "currency"⟩]

/-- One rendered row of the KPI HTML table: the row's cell data plus the
scenario marker colour.  The surrounding HTML string assembly of
`format_kpi_table` is elided; the marker logic
`color = "green" if kpi['value'] >= kpi['target'] else "red"` (line 86) is kept. -/
structure RenderedRow where
  name : String
  value : ℚ
  target : ℚ
  type : String
  color : String
deriving DecidableEq, Repr

/-- Function `format_kpi_table`, modelled as the list of rendered body rows of
the returned HTML table, one per KPI dictionary, in order. -/
def format_kpi_table (kpis : List Kpi) (title : String) (is_yearly : Bool) :
    List RenderedRow :=
  let _ := title
  let _ := is_yearly
  kpis.map fun k =>
    ⟨k.name, k.value, k.target, k.type, if k.value ≥ k.target then "green" else "red"⟩

/-! ## Mailer (main.py lines 120-159) -/

/-- Outcome of one `send_email` call: which attachment paths were added, which
were skipped with the `'Warning: File not found'` print, and whether the mail
item reached `Display()`/`Send()` (it always does; a missing attachment never
aborts the call). -/
structure SendOutcome where
  attached : List String
  warnings : List String
  delivered : Bool
deriving DecidableEq, Repr

/-- Function `send_email`.  The filesystem is passed in as the two predicates
`path.exists()` and `path.is_file()`; Outlook COM calls are elided, keeping the
attachment loop (lines 146-152) and the fact that control always reaches the
final `Display()`/`Send()`. -/
def send_email (path_exists path_isfile : String → Bool)
    (email_from email_to subject email_body : String)
    (file_paths : Option (List String)) (preview : Bool) : SendOutcome :=
  let _ := email_from
  let _ := email_to
  let _ := subject
  let _ := email_body
  let _ := preview
  let paths := file_paths.getD []
  { attached := paths.filter fun p => path_exists p && path_isfile p,
    warnings := paths.filter fun p => !(path_exists p && path_isfile p),
    delivered := true }

/-! ## Column-name round trip (main.py lines 161-185) -/

/-- Python `str.title()` word-state machine on ASCII letters: an alphabetic
character is uppercased when the previous character was not alphabetic and
lowercased otherwise; non-alphabetic characters pass through and reset the
word state. -/
def pyTitleGo : List Char → Bool → List Char
  | [], _ => []
  | c :: rest, prevCased =>
    if c.isAlpha then (if prevCased then c.toLower else c.toUpper) :: pyTitleGo rest true
    else c :: pyTitleGo rest false

/-- Function `standardize_column_names` applied to one column name:
`.str.lower().str.replace(' ', '_')`. -/
def standardize_column_names (name : String) : String :=
  ⟨(name.data.map Char.toLower).map fun c => if c = ' ' then '_' else c⟩

/-- Function `restore_column_names` applied to one column name:
`.str.title().str.replace('_', ' ')`. -/
def restore_column_names (name : String) : String :=
  ⟨(pyTitleGo name.data false).map fun c => if c = '_' then ' ' else c⟩

/-- A title-case alphabetic word: an uppercase ASCII letter followed by
lowercase ASCII letters.  This is the vocabulary of the human-readable header
form handled by the column-name round trip. -/
def titleWord : List Char → Bool
  | [] => false
  | c :: rest => c.isUpper && rest.all fun d => d.isLower

/-- Join words with single spaces (the shape of a human-readable header such
as `Sales Code`). -/
def joinWords : List (List Char) → List Char
  | [] => []
  | [w] => w
  | w :: x :: ws => w ++ ' ' :: joinWords (x :: ws)

/-! ## Override-recipient substitution (main.py lines 259-266) -/

/-- The literal part `email+` of the pattern `email\+(.*?)@address\.com`. -/
def headPat : List Char := ['e', 'm', 'a', 'i', 'l', '+']

/-- The literal part `@address.com` of the pattern. -/
def suffixPat : List Char := ['@', 'a', 'd', 'd', 'r', 'e', 's', 's', '.', 'c', 'o', 'm']

/-- Whether the first list is a prefix of the second. -/
def listStarts : List Char → List Char → Bool
  | [], _ => true
  | _ :: _, [] => false
  | p :: ps, c :: cs => p = c && listStarts ps cs

/-- Lazy match of `(.*?)@address\.com`: the SHORTEST split `cs = tag ++
"@address.com" ++ rest` whose tag contains no newline (`.` does not match a
newline), if any. -/
def findTag : List Char → Option (List Char × List Char)
  | [] => none
  | c :: rest =>
    if listStarts suffixPat (c :: rest) then some ([], List.drop 12 (c :: rest))
    else if c = '\n' then none
    else (findTag rest).map fun pr => (c :: pr.1, pr.2)

/-- `re.sub` scanning for the fixed pattern `email\+(.*?)@address\.com`:
try a match at each position left to right; on a match, emit the replacement
and continue after the matched text; otherwise advance one character.  The
fuel argument (initialised to the string length, which bounds the number of
steps) makes the recursion structural. -/
def reSubAux (repl : List Char → List Char) : ℕ → List Char → List Char
  | 0, cs => cs
  | _ + 1, [] => []
  | fuel + 1, c :: rest =>
    if listStarts headPat (c :: rest) then
      match findTag (List.drop 6 (c :: rest)) with
      | some (tag, after) => repl tag ++ reSubAux repl fuel after
      | none => c :: reSubAux repl fuel rest
    else c :: reSubAux repl fuel rest

/-- Python `str.split(sep)` for a single-character separator. -/
def pySplit (sep : Char) : List Char → List (List Char)
  | [] => [[]]
  | c :: rest =>
    let r := pySplit sep rest
    if c = sep then [] :: r
    else
      match r with
      | [] => [[c]]
      | w :: ws => (c :: w) :: ws

/-- Lines 262-266: the testing override applied to one recipient address.
Every occurrence of `email+<tag>@address.com` in the address is replaced by
`f"{email_to.split('@')[0]}+{tag}@{email_to.split('@')[1]}"`.  (An override
address without `'@'` would raise `IndexError` in the source; the model
substitutes an empty domain instead, which no theorem relies on.) -/
def override_email (email_to : String) (s : String) : String :=
  let parts := pySplit '@' email_to.data
  let lp := parts.getD 0 []
  let dom := parts.getD 1 []
  ⟨reSubAux (fun tag => lp ++ '+' :: (tag ++ '@' :: dom)) s.data.length s.data⟩

/-- Whether the pattern `email\+(.*?)@address\.com` matches anywhere in the
text (the condition under which `re.sub` changes it). -/
def hasEmailPattern : List Char → Bool
  | [] => false
  | c :: rest =>
    (listStarts headPat (c :: rest) && (findTag (List.drop 6 (c :: rest))).isSome) ||
      hasEmailPattern rest

/-! ## The program (main.py lines 31-33 and 187-390) -/

/-- The four loaded input tables (spreadsheet/CSV reading and column
standardisation elided: tables arrive already in canonical column form). -/
structure MainInputs where
  emails : List EmailRow
  products : List Product
  stores : List Store
  sales : List SaleLine
deriving Repr

/-- An observable side effect of a run: a spreadsheet written, or an email
given to Outlook (sender, recipient, subject, attachment paths; HTML bodies
elided). -/
inductive Event where
  | file_write : String → Event
  | email_send : String → String → String → List String → Event
deriving DecidableEq, Repr

/-- `store_name.casefold().replace(' ', '_')` (line 311), with `casefold`
modelled as ASCII lowercasing. -/
def store_name_safe (store_name : String) : String :=
  ⟨(store_name.data.map Char.toLower).map fun c => if c = ' ' then '_' else c⟩

/-- Zero-padded decimal rendering used by the `strftime` patterns. -/
def pad2 (n : ℕ) : String := if n < 10 then "0" ++ toString n else toString n

/-- `yesterday_date.strftime(r'%Y/%m/%d')`. -/
def strfSlash (d : Date) : String :=
  toString d.year ++ "/" ++ pad2 d.month ++ "/" ++ pad2 d.day

/-- `yesterday_date.strftime(r'%Y_%m_%d')`. -/
def strfUnder (d : Date) : String :=
  toString d.year ++ "_" ++ pad2 d.month ++ "_" ++ pad2 d.day

/-- `revenue_df.merge(stores_df, on='store_id')` (lines 336, 339): the table
handed to `get_ranking_info`. -/
def rankingInput (rev : List (String × ℚ)) (stores : List Store) : List RankRow :=
  (mergeInner rev (stores.map fun st => (st.store_id, st.store_name))).map fun p =>
    ⟨p.1, p.2.2, p.2.1⟩

/-- The body of `main()` (lines 187-387) as the list of side effects it
performs, in order: per-store backup exports and report emails, then the two
ranking exports and the board email.  HTML bodies, directory creation and the
inter-send sleep are elided.  A recipient row whose store has no KPI row
(NaN fields after the left merges, on which the source's rendering would
raise) produces no events in the model. -/
def main_run (email_from : String) (email_to_env : Option String)
    (inp : MainInputs) (yesterday : Date) : List Event :=
  let daily_sales := dailyFilter yesterday inp.sales
  let yearly_sales := yearlyFilter yesterday inp.sales
  let kpis := all_kpis_df daily_sales yearly_sales inp.products
  let email_to := email_to_env.getD ""
  let emails_df := inp.emails.map fun e => { e with email := override_email email_to e.email }
  let store_events := (emails_df.filter fun e => e.store_id ≠ "BOARD").flatMap fun e =>
    match List.lookup e.store_id kpis with
    | none => []
    | some _ =>
      let sname := ((inp.stores.find? fun st => st.store_id = e.store_id).map Store.store_name).getD ""
      let safe := store_name_safe sname
      let ytd_path := "store_backup_files/" ++ safe ++ "/" ++ safe ++ "_sales.xlsx"
      [Event.file_write ytd_path,
       Event.email_send email_from e.email ("OnePage " ++ strfSlash yesterday ++ " - " ++ sname)
         [ytd_path]]
  let daily_path :=
    "store_backup_files/board_of_directors/daily_ranking_" ++ strfUnder yesterday ++ ".xlsx"
  let yearly_path :=
    "store_backup_files/board_of_directors/yearly_ranking_" ++ toString yesterday.year ++ ".xlsx"
  let board_to := ((emails_df.filter fun e => e.store_id = "BOARD").headD ⟨"", "", ""⟩).email
  store_events ++
    [Event.file_write daily_path, Event.file_write yearly_path,
     Event.email_send email_from board_to
       ("Daily and YTD Store Revenue Rankings - " ++ strfSlash yesterday)
       [daily_path, yearly_path]]

/-- The whole program: the module-level configuration guard (lines 31-33) runs
first, at import time, before `main()` is entered.  `os.getenv` is the `env`
parameter; an unset or empty `EMAIL_FROM` raises `ValueError` there, so the
run aborts with the error before any table is filtered, joined, grouped,
exported or sent, which the model reflects by returning `Except.error` without
ever invoking `main_run`. -/
def program_run (env : String → Option String) (inp : MainInputs) (yesterday : Date) :
    Except String (List Event) :=
  match env "EMAIL_FROM" with
  | none => Except.error "EMAIL_FROM environment variable is not set."
  | some s =>
    if s = "" then Except.error "EMAIL_FROM environment variable is not set."
    else Except.ok (main_run s (env "EMAIL_TO") inp yesterday)

/-! ## Spec-side definition used for a refinement comparison -/

/-- Modelled from the spec wording of claim C2: the revenue a store should get
in a window, summing `quantity * unit_price` over exactly those of the store's
lines that match a known `product_id` AND a known `store_id`. -/
def specRevenueC2 (sales : List SaleLine) (products : List Product)
    (stores : List Store) (s : String) : ℚ :=
  ((sales.filter fun l =>
      l.store_id = s &&
      (products.any fun p => p.product_id = l.product_id) &&
      (stores.any fun st => st.store_id = l.store_id)).map fun l =>
    l.quantity * l.unit_price).sum

/-! ## Helper lemmas about the pandas model -/

theorem mem_groupKeys {s : String} {xs : List String} : s ∈ groupKeys xs ↔ s ∈ xs := by
  unfold groupKeys
  rw [(List.perm_insertionSort strRel xs.dedup).mem_iff, List.mem_dedup]

theorem nodup_groupKeys (xs : List String) : (groupKeys xs).Nodup :=
  ((List.perm_insertionSort strRel xs.dedup).nodup_iff).mpr (List.nodup_dedup xs)

theorem lookup_keys_map {α : Type} (f : String → α) (s : String) (ks : List String) :
    List.lookup s (ks.map fun k => (k, f k)) = if s ∈ ks then some (f s) else none := by
  induction ks with
  | nil => simp
  | cons k ks ih =>
    by_cases h : s = k
    · subst h; simp [List.lookup]
    · have hb : (s == k) = false := by simp [h]
      simp [List.lookup, hb, ih, h]

theorem keys_keys_map {α : Type} (f : String → α) (ks : List String) :
    (ks.map fun k => (k, f k)).map Prod.fst = ks := by
  simp [List.map_map, Function.comp_def]

theorem lookup_eq_none_of_not_mem {α : Type} {s : String} {l : List (String × α)}
    (h : s ∉ l.map Prod.fst) : List.lookup s l = none := by
  induction l with
  | nil => rfl
  | cons p l ih =>
    simp only [List.map_cons, List.mem_cons] at h
    push_neg at h
    have hb : (s == p.1) = false := by simp [h.1]
    cases p with
    | mk k v => simpa [List.lookup, hb] using ih h.2

theorem mem_keys_iff_lookup {α : Type} {s : String} {l : List (String × α)} :
    s ∈ l.map Prod.fst ↔ List.lookup s l ≠ none := by
  constructor
  · intro hmem
    induction l with
    | nil => simp at hmem
    | cons p l ih =>
      obtain ⟨k, v⟩ := p
      by_cases hs : s = k
      · subst hs; simp [List.lookup]
      · have hb : (s == k) = false := by simp [hs]
        simp only [List.map_cons, List.mem_cons] at hmem
        rcases hmem with h | h
        · exact absurd h hs
        · simpa [List.lookup, hb] using ih h
  · intro hlk
    by_contra hmem
    exact hlk (lookup_eq_none_of_not_mem hmem)

theorem keys_mergeInner_sublist {α β : Type} (xs : List (String × α)) (ys : List (String × β)) :
    ((mergeInner xs ys).map Prod.fst).Sublist (xs.map Prod.fst) := by
  induction xs with
  | nil => simp [mergeInner]
  | cons p xs ih =>
    simp only [mergeInner, List.filterMap_cons, List.map_cons]
    cases h : List.lookup p.1 ys with
    | none => exact ih.cons p.1
    | some b => simpa [mergeInner] using ih.cons₂ p.1

theorem lookup_mergeInner {α β : Type} {xs : List (String × α)} {ys : List (String × β)}
    (h : (xs.map Prod.fst).Nodup) (s : String) :
    List.lookup s (mergeInner xs ys) =
      (List.lookup s xs).bind fun a => (List.lookup s ys).map fun b => (a, b) := by
  induction xs with
  | nil => simp [mergeInner]
  | cons p xs ih =>
    obtain ⟨k, v⟩ := p
    simp only [List.map_cons, List.nodup_cons] at h
    have ih2 := ih h.2
    have expand : mergeInner ((k, v) :: xs) ys =
        match List.lookup k ys with
        | none => mergeInner xs ys
        | some b => (k, v, b) :: mergeInner xs ys := by
      cases hky : List.lookup k ys <;> simp [mergeInner, List.filterMap_cons, hky]
    rw [expand]
    cases hy : List.lookup k ys with
    | none =>
      have hnot : k ∉ (mergeInner xs ys).map Prod.fst := fun hmem =>
        h.1 ((keys_mergeInner_sublist xs ys).mem hmem)
      by_cases hs : s = k
      · subst hs
        rw [lookup_eq_none_of_not_mem hnot]
        simp [List.lookup, hy]
      · have hb : (s == k) = false := by simp [hs]
        rw [ih2]
        simp [List.lookup, hb]
    | some b =>
      by_cases hs : s = k
      · subst hs
        simp [List.lookup, hy]
      · have hb : (s == k) = false := by simp [hs]
        simp [List.lookup, hb, ih2]

theorem lookup_map_val {α β : Type} (g : α → β) (s : String) (xs : List (String × α)) :
    List.lookup s (xs.map fun p => (p.1, g p.2)) = (List.lookup s xs).map g := by
  induction xs with
  | nil => simp
  | cons p xs ih =>
    by_cases hs : s = p.1
    · subst hs; simp [List.lookup]
    · have hb : (s == p.1) = false := by simp [hs]
      simp [List.lookup, hb, ih]

/-! ## Lemmas about the product join and the revenue aggregate -/

theorem mergeProducts_append (xs ys : List SaleLine) (ps : List Product) :
    mergeProducts (xs ++ ys) ps = mergeProducts xs ps ++ mergeProducts ys ps := by
  simp [mergeProducts, List.flatMap_append]

theorem mergeProducts_cons_unmatched {l : SaleLine} {ps : List Product}
    (h : ∀ p ∈ ps, p.product_id ≠ l.product_id) (sales : List SaleLine) :
    mergeProducts (l :: sales) ps = mergeProducts sales ps := by
  have hnil : ps.filter (fun p => p.product_id = l.product_id) = [] :=
    List.filter_eq_nil_iff.mpr (by intro p hp; simpa using h p hp)
  simp [mergeProducts, List.flatMap_cons, hnil]

theorem mergeProducts_cons (t : SaleLine) (rest : List SaleLine) (ps : List Product) :
    mergeProducts (t :: rest) ps =
      ((ps.filter fun p => p.product_id = t.product_id).map fun _ =>
        ({ sales_code := t.sales_code, date := t.date, store_id := t.store_id,
           quantity := t.quantity, unit_price := t.unit_price } : MergedLine)) ++
        mergeProducts rest ps := by
  simp [mergeProducts, List.flatMap_cons]

theorem filter_mergeProducts (sales : List SaleLine) (ps : List Product) (s : String) :
    (mergeProducts sales ps).filter (fun m => m.store_id = s) =
      mergeProducts (sales.filter fun l => l.store_id = s) ps := by
  induction sales with
  | nil => simp [mergeProducts]
  | cons l sales ih =>
    by_cases hs : l.store_id = s
    · have hblock : (((ps.filter fun p => p.product_id = l.product_id).map fun _ =>
          ({ sales_code := l.sales_code, date := l.date, store_id := l.store_id,
             quantity := l.quantity, unit_price := l.unit_price } : MergedLine)).filter
            fun m => m.store_id = s) =
          ((ps.filter fun p => p.product_id = l.product_id).map fun _ =>
            ({ sales_code := l.sales_code, date := l.date, store_id := l.store_id,
               quantity := l.quantity, unit_price := l.unit_price } : MergedLine)) := by
        apply List.filter_eq_self.mpr
        intro m hm
        rcases List.mem_map.mp hm with ⟨p, _, hp⟩
        subst hp
        simpa using hs
      rw [mergeProducts_cons, List.filter_append, hblock, ih,
        List.filter_cons_of_pos (by simpa using hs), mergeProducts_cons]
    · have hblock : (((ps.filter fun p => p.product_id = l.product_id).map fun _ =>
          ({ sales_code := l.sales_code, date := l.date, store_id := l.store_id,
             quantity := l.quantity, unit_price := l.unit_price } : MergedLine)).filter
            fun m => m.store_id = s) = [] := by
        apply List.filter_eq_nil_iff.mpr
        intro m hm
        rcases List.mem_map.mp hm with ⟨p, _, hp⟩
        subst hp
        simpa using hs
      rw [mergeProducts_cons, List.filter_append, hblock, ih,
        List.filter_cons_of_neg (by simpa using hs), List.nil_append]

theorem sum_mergeProducts (sales : List SaleLine) (ps : List Product) :
    ((mergeProducts sales ps).map fun m => m.quantity * m.unit_price).sum =
      (sales.map fun l =>
        ((ps.filter fun p => p.product_id = l.product_id).length : ℚ) *
          (l.quantity * l.unit_price)).sum := by
  induction sales with
  | nil => simp [mergeProducts]
  | cons l sales ih =>
    simp only [mergeProducts, List.flatMap_cons, List.map_append, List.sum_append,
      List.map_cons, List.sum_cons]
    simp only [mergeProducts] at ih
    rw [ih]
    congr 1
    rw [List.map_map]
    have hrep : ((ps.filter fun p => p.product_id = l.product_id).map
        ((fun m : MergedLine => m.quantity * m.unit_price) ∘ fun _ =>
          ({ sales_code := l.sales_code, date := l.date, store_id := l.store_id,
             quantity := l.quantity, unit_price := l.unit_price } : MergedLine))) =
        List.replicate
          ((ps.filter fun p => p.product_id = l.product_id).map
            ((fun m : MergedLine => m.quantity * m.unit_price) ∘ fun _ =>
              ({ sales_code := l.sales_code, date := l.date, store_id := l.store_id,
                 quantity := l.quantity, unit_price := l.unit_price } : MergedLine))).length
          (l.quantity * l.unit_price) := by
      apply List.eq_replicate_of_mem
      intro a ha
      rcases List.mem_map.mp ha with ⟨p, _, hp⟩
      simp [← hp]
    rw [hrep, List.sum_replicate, List.length_map, nsmul_eq_mul]

theorem filter_length_of_nodup {ps : List Product}
    (hnd : (ps.map (·.product_id)).Nodup) (x : String) :
    (ps.filter fun p => p.product_id = x).length =
      if (ps.any fun p => p.product_id = x) then 1 else 0 := by
  induction ps with
  | nil => simp
  | cons p ps ih =>
    simp only [List.map_cons, List.nodup_cons] at hnd
    by_cases hx : p.product_id = x
    · have hnil : ps.filter (fun q => q.product_id = x) = [] := by
        apply List.filter_eq_nil_iff.mpr
        intro q hq hqx
        exact hnd.1 (hx ▸ (by simpa using hqx) ▸ List.mem_map_of_mem (·.product_id) hq)
      simp [List.filter_cons, List.any_cons, hx, hnil]
    · simp [List.filter_cons, List.any_cons, hx, ih hnd.2]

theorem sum_count_filter (xs : List SaleLine) {ps : List Product}
    (hnd : (ps.map (·.product_id)).Nodup) :
    (xs.map fun l =>
        ((ps.filter fun p => p.product_id = l.product_id).length : ℚ) *
          (l.quantity * l.unit_price)).sum =
      ((xs.filter fun l => ps.any fun p => p.product_id = l.product_id).map fun l =>
        l.quantity * l.unit_price).sum := by
  induction xs with
  | nil => simp
  | cons l xs ih =>
    rw [List.map_cons, List.sum_cons, filter_length_of_nodup hnd, ih]
    by_cases h : (ps.any fun p => p.product_id = l.product_id) = true
    · rw [if_pos h, List.filter_cons, if_pos h, List.map_cons, List.sum_cons]
      push_cast
      ring
    · rw [if_neg h, List.filter_cons, if_neg h]
      push_cast
      ring

theorem mem_mergeProducts_stores {sales : List SaleLine} {ps : List Product} {s : String} :
    s ∈ (mergeProducts sales ps).map (·.store_id) ↔
      (sales.any fun l => l.store_id = s && ps.any fun p => p.product_id = l.product_id) = true := by
  constructor
  · intro h
    rcases List.mem_map.mp h with ⟨m, hm, hms⟩
    rcases List.mem_flatMap.mp hm with ⟨l, hl, hlm⟩
    rcases List.mem_map.mp hlm with ⟨p, hp, hpm⟩
    refine List.any_eq_true.mpr ⟨l, hl, ?_⟩
    have hstore : l.store_id = s := by rw [← hms, ← hpm]
    refine (Bool.and_eq_true _ _).mpr ⟨by simpa using hstore, ?_⟩
    exact List.any_eq_true.mpr ⟨p, (List.mem_filter.mp hp).1,
      (List.mem_filter.mp hp).2⟩
  · intro h
    rcases List.any_eq_true.mp h with ⟨l, hl, hcond⟩
    rcases (Bool.and_eq_true _ _).mp hcond with ⟨hstore, hmatch⟩
    rcases List.any_eq_true.mp hmatch with ⟨p, hp, hpx⟩
    refine List.mem_map.mpr
      ⟨⟨l.sales_code, l.date, l.store_id, l.quantity, l.unit_price⟩, ?_, by simpa using hstore⟩
    refine List.mem_flatMap.mpr ⟨l, hl, ?_⟩
    exact List.mem_map.mpr ⟨p, List.mem_filter.mpr ⟨hp, hpx⟩, rfl⟩

/-- Full characterisation of the revenue aggregate: a store key is present
exactly when some of its lines matches a known product, and its value sums
`quantity * unit_price` over exactly the known-product lines of the store
(the store table plays no part). -/
theorem lookup_revenue_df (sales : List SaleLine) (ps : List Product)
    (hnd : (ps.map (·.product_id)).Nodup) (s : String) :
    List.lookup s (revenue_df sales ps) =
      if (sales.any fun l => l.store_id = s && ps.any fun p => p.product_id = l.product_id) then
        some (((sales.filter fun l =>
            l.store_id = s && ps.any fun p => p.product_id = l.product_id).map fun l =>
          l.quantity * l.unit_price).sum)
      else none := by
  have hkey := lookup_keys_map
    (fun t => (((mergeProducts sales ps).filter fun m => m.store_id = t).map fun m =>
      m.quantity * m.unit_price).sum) s
    (groupKeys ((mergeProducts sales ps).map (·.store_id)))
  simp only [revenue_df]
  rw [hkey]
  by_cases hmem :
      (sales.any fun l => l.store_id = s && ps.any fun p => p.product_id = l.product_id) = true
  · rw [if_pos (mem_groupKeys.mpr (mem_mergeProducts_stores.mpr hmem)), if_pos hmem]
    congr 1
    rw [filter_mergeProducts, sum_mergeProducts, sum_count_filter _ hnd, List.filter_filter]
    congr 1
    congr 1
    apply List.filter_congr
    intro a _
    exact Bool.and_comm _ _
  · rw [if_neg (fun hin => hmem (mem_mergeProducts_stores.mp (mem_groupKeys.mp hin))),
      if_neg hmem]

/-! ## Characterisations of the distinct-count and derived aggregates -/

theorem lookup_distinct_products_df (sales : List SaleLine) (s : String) :
    List.lookup s (distinct_products_df sales) =
      if s ∈ sales.map (·.store_id) then
        some (((sales.filter fun l => l.store_id = s).map (·.product_id)).dedup.length)
      else none := by
  have hkey := lookup_keys_map
    (fun t => ((sales.filter fun l => l.store_id = t).map (·.product_id)).dedup.length) s
    (groupKeys (sales.map (·.store_id)))
  simp only [distinct_products_df]
  rw [hkey]
  by_cases hmem : s ∈ sales.map (·.store_id)
  · rw [if_pos (mem_groupKeys.mpr hmem), if_pos hmem]
  · rw [if_neg (fun hin => hmem (mem_groupKeys.mp hin)), if_neg hmem]

theorem lookup_distinct_sales_df (sales : List SaleLine) (s : String) :
    List.lookup s (distinct_sales_df sales) =
      if s ∈ sales.map (·.store_id) then
        some (((sales.filter fun l => l.store_id = s).map (·.sales_code)).dedup.length)
      else none := by
  have hkey := lookup_keys_map
    (fun t => ((sales.filter fun l => l.store_id = t).map (·.sales_code)).dedup.length) s
    (groupKeys (sales.map (·.store_id)))
  simp only [distinct_sales_df]
  rw [hkey]
  by_cases hmem : s ∈ sales.map (·.store_id)
  · rw [if_pos (mem_groupKeys.mpr hmem), if_pos hmem]
  · rw [if_neg (fun hin => hmem (mem_groupKeys.mp hin)), if_neg hmem]

theorem nodup_keys_revenue_df (sales : List SaleLine) (ps : List Product) :
    ((revenue_df sales ps).map Prod.fst).Nodup := by
  simp only [revenue_df]
  rw [keys_keys_map]
  exact nodup_groupKeys _

theorem nodup_keys_mergeInner {α β : Type} {xs : List (String × α)} (ys : List (String × β))
    (h : (xs.map Prod.fst).Nodup) : ((mergeInner xs ys).map Prod.fst).Nodup :=
  (keys_mergeInner_sublist xs ys).nodup h

theorem nodup_keys_kpis_df (sales : List SaleLine) (ps : List Product) :
    ((kpis_df sales ps).map Prod.fst).Nodup := by
  unfold kpis_df
  exact nodup_keys_mergeInner _ (nodup_keys_mergeInner _ (nodup_keys_revenue_df sales ps))

theorem mem_keys_mergeInner {α β : Type} {xs : List (String × α)} {ys : List (String × β)}
    (h : (xs.map Prod.fst).Nodup) (s : String) :
    s ∈ (mergeInner xs ys).map Prod.fst ↔ s ∈ xs.map Prod.fst ∧ s ∈ ys.map Prod.fst := by
  rw [mem_keys_iff_lookup, lookup_mergeInner h, mem_keys_iff_lookup, mem_keys_iff_lookup]
  cases List.lookup s xs <;> cases List.lookup s ys <;> simp

theorem lookup_avg_ticket_df (sales : List SaleLine) (ps : List Product) (s : String) :
    List.lookup s (avg_ticket_df sales ps) =
      (List.lookup s (revenue_df sales ps)).bind fun r =>
        (List.lookup s (distinct_sales_df sales)).map fun n : ℕ => (r, n, r / (n : ℚ)) := by
  have hmap := lookup_map_val (fun x : ℚ × ℕ => (x.1, x.2, x.1 / (x.2 : ℚ))) s
    (mergeInner (revenue_df sales ps) (distinct_sales_df sales))
  have hstep : List.lookup s (avg_ticket_df sales ps) =
      (List.lookup s (mergeInner (revenue_df sales ps) (distinct_sales_df sales))).map
        (fun x : ℚ × ℕ => (x.1, x.2, x.1 / (x.2 : ℚ))) := hmap
  rw [hstep, lookup_mergeInner (nodup_keys_revenue_df sales ps)]
  cases List.lookup s (revenue_df sales ps) <;>
    cases List.lookup s (distinct_sales_df sales) <;> simp

/-- Full characterisation of the average-ticket aggregate for a store with at
least one known-product line: revenue over known-product lines divided by the
distinct `sales_code` count over ALL of the store's lines. -/
theorem avg_ticket_value (sales : List SaleLine) (ps : List Product)
    (hnd : (ps.map (·.product_id)).Nodup) (s : String)
    (hmatch : (sales.any fun l =>
      l.store_id = s && ps.any fun p => p.product_id = l.product_id) = true) :
    List.lookup s (avg_ticket_df sales ps) =
      some ((((sales.filter fun l =>
            l.store_id = s && ps.any fun p => p.product_id = l.product_id).map fun l =>
          l.quantity * l.unit_price).sum),
        (((sales.filter fun l => l.store_id = s).map (·.sales_code)).dedup.length),
        ((((sales.filter fun l =>
            l.store_id = s && ps.any fun p => p.product_id = l.product_id).map fun l =>
          l.quantity * l.unit_price).sum) /
          ((((sales.filter fun l => l.store_id = s).map (·.sales_code)).dedup.length : ℕ) : ℚ))) := by
  have hs_mem : s ∈ sales.map (·.store_id) := by
    rcases List.any_eq_true.mp hmatch with ⟨l, hl, hcond⟩
    rcases (Bool.and_eq_true _ _).mp hcond with ⟨hstore, _⟩
    exact List.mem_map.mpr ⟨l, hl, by simpa using hstore⟩
  rw [lookup_avg_ticket_df, lookup_revenue_df sales ps hnd, if_pos hmatch,
    lookup_distinct_sales_df, if_pos hs_mem]
  rfl

/-! ## Lemmas about the override-recipient substitution -/

theorem listStarts_append_self (xs ys : List Char) : listStarts xs (xs ++ ys) = true := by
  induction xs with
  | nil => rfl
  | cons c cs ih => simp [listStarts, ih]

theorem findTag_cons (c : Char) (rest : List Char) :
    findTag (c :: rest) =
      if listStarts suffixPat (c :: rest) then some ([], List.drop 12 (c :: rest))
      else if c = '\n' then none
      else (findTag rest).map fun pr => (c :: pr.1, pr.2) := rfl

theorem reSubAux_cons (repl : List Char → List Char) (fuel : ℕ) (c : Char) (rest : List Char) :
    reSubAux repl (fuel + 1) (c :: rest) =
      if listStarts headPat (c :: rest) then
        match findTag (List.drop 6 (c :: rest)) with
        | some (tag, after) => repl tag ++ reSubAux repl fuel after
        | none => c :: reSubAux repl fuel rest
      else c :: reSubAux repl fuel rest := rfl

theorem reSubAux_nil (repl : List Char → List Char) (fuel : ℕ) :
    reSubAux repl fuel [] = [] := by
  cases fuel <;> rfl

/-- The lazy group match succeeds on `tag ++ "@address.com" ++ rest` and
returns the given tag whenever the tag contains no `'@'` (so no earlier
position can complete the suffix) and no newline. -/
theorem findTag_clean (tag : List Char) (hat : '@' ∉ tag) (hnl : '\n' ∉ tag)
    (rest : List Char) :
    findTag (tag ++ suffixPat ++ rest) = some (tag, rest) := by
  induction tag with
  | nil =>
    have hcons : ([] : List Char) ++ suffixPat ++ rest =
        '@' :: (['a', 'd', 'd', 'r', 'e', 's', 's', '.', 'c', 'o', 'm'] ++ rest) := rfl
    have h1 : listStarts suffixPat (suffixPat ++ rest) = true := listStarts_append_self _ _
    have hdrop : List.drop 12 (suffixPat ++ rest) = rest := by
      have hl : suffixPat.length = 12 := rfl
      rw [← hl, List.drop_left]
    rw [hcons, findTag_cons]
    rw [show ('@' :: (['a', 'd', 'd', 'r', 'e', 's', 's', '.', 'c', 'o', 'm'] ++ rest)) =
      suffixPat ++ rest from rfl]
    rw [if_pos h1, hdrop]
  | cons c tag ih =>
    have hc : ¬('@' : Char) = c := fun h => hat (h ▸ List.mem_cons_self c tag)
    have hcn : ¬c = '\n' := fun h => hnl (h ▸ List.mem_cons_self c tag)
    have hstart : listStarts suffixPat (c :: (tag ++ (suffixPat ++ rest))) = false := by
      simp [suffixPat, listStarts, hc]
    have hrec := ih (fun h => hat (List.mem_cons_of_mem c h))
      (fun h => hnl (List.mem_cons_of_mem c h))
    rw [List.append_assoc] at hrec
    rw [List.cons_append, List.cons_append, List.append_assoc, findTag_cons,
      if_neg (by simp [hstart]), if_neg hcn, hrec]
    rfl

/-- If the pattern matches nowhere in the text, `re.sub` leaves it unchanged
(whatever the fuel). -/
theorem reSubAux_no_match (repl : List Char → List Char) :
    ∀ (fuel : ℕ) (cs : List Char), hasEmailPattern cs = false → reSubAux repl fuel cs = cs := by
  intro fuel
  induction fuel with
  | zero => intro cs _; rfl
  | succ fuel ih =>
    intro cs h
    cases cs with
    | nil => rfl
    | cons c rest =>
      have h' := h
      simp only [hasEmailPattern, Bool.or_eq_false_iff] at h'
      obtain ⟨h1, h2⟩ := h'
      rw [reSubAux_cons]
      by_cases hs : listStarts headPat (c :: rest) = true
      · have hnone : findTag (List.drop 6 (c :: rest)) = none := by
          rw [hs, Bool.true_and] at h1
          cases hft : findTag (List.drop 6 (c :: rest)) with
          | none => rfl
          | some v => rw [hft] at h1; simp at h1
        rw [if_pos hs, hnone]
        show c :: reSubAux repl fuel rest = c :: rest
        rw [ih rest h2]
      · rw [if_neg hs, ih rest h2]

/-- On a text that is exactly one pattern instance `email+<tag>@address.com`
(with a tag free of `'@'` and newlines), `re.sub` emits exactly the
replacement for that tag. -/
theorem reSubAux_exact (repl : List Char → List Char) (tag : List Char) (fuel : ℕ)
    (hat : '@' ∉ tag) (hnl : '\n' ∉ tag) :
    reSubAux repl (fuel + 1) (headPat ++ (tag ++ suffixPat)) = repl tag := by
  have happ : headPat ++ (tag ++ suffixPat) =
      'e' :: ('m' :: 'a' :: 'i' :: 'l' :: '+' :: (tag ++ suffixPat)) := rfl
  have hstart : listStarts headPat (headPat ++ (tag ++ suffixPat)) = true :=
    listStarts_append_self _ _
  have hdrop : List.drop 6 ('e' :: ('m' :: 'a' :: 'i' :: 'l' :: '+' :: (tag ++ suffixPat))) =
      tag ++ suffixPat := rfl
  have hfind : findTag (tag ++ suffixPat) = some (tag, []) := by
    have := findTag_clean tag hat hnl []
    rwa [List.append_nil] at this
  rw [happ, reSubAux_cons, if_pos (happ ▸ hstart), hdrop, hfind]
  show repl tag ++ reSubAux repl fuel [] = repl tag
  rw [reSubAux_nil, List.append_nil]

/-- An address in which the pattern occurs nowhere is left unchanged by the
override substitution. -/
theorem override_email_no_match (email_to s : String)
    (h : hasEmailPattern s.data = false) : override_email email_to s = s := by
  show (⟨reSubAux (fun t => (pySplit '@' email_to.data).getD 0 [] ++
      '+' :: (t ++ '@' :: (pySplit '@' email_to.data).getD 1 []))
      s.data.length s.data⟩ : String) = s
  rw [reSubAux_no_match _ _ _ h]

/-- An address that is exactly `email+<tag>@address.com` (tag free of `'@'`
and newlines) is rewritten to
`<override-local>+<tag>@<override-domain>`, where the override local part and
domain are the pieces of the configured address around its first `'@'`. -/
theorem override_email_exact (email_to : String) (tag : List Char)
    (hat : '@' ∉ tag) (hnl : '\n' ∉ tag) :
    override_email email_to ⟨headPat ++ (tag ++ suffixPat)⟩ =
      ⟨(pySplit '@' email_to.data).getD 0 [] ++
        '+' :: (tag ++ '@' :: (pySplit '@' email_to.data).getD 1 [])⟩ := by
  have hlen : (headPat ++ (tag ++ suffixPat)).length = ((tag ++ suffixPat).length + 5) + 1 := by
    simp [headPat]
  show (⟨reSubAux (fun t => (pySplit '@' email_to.data).getD 0 [] ++
      '+' :: (t ++ '@' :: (pySplit '@' email_to.data).getD 1 []))
      (headPat ++ (tag ++ suffixPat)).length (headPat ++ (tag ++ suffixPat))⟩ : String) = _
  congr 1
  rw [hlen]
  exact reSubAux_exact _ tag _ hat hnl

/-! ## Character-case lemmas for the column-name round trip -/

theorem toNat_ofNat_valid {n : ℕ} (h : n < 55296) : (Char.ofNat n).toNat = n := by
  rw [Char.ofNat, dif_pos (Or.inl h)]
  rfl

theorem isUpper_range {c : Char} (h : c.isUpper = true) : 65 ≤ c.toNat ∧ c.toNat ≤ 90 := by
  simp only [Char.isUpper, Bool.and_eq_true, decide_eq_true_eq] at h
  exact h

theorem isLower_range {c : Char} (h : c.isLower = true) : 97 ≤ c.toNat ∧ c.toNat ≤ 122 := by
  simp only [Char.isLower, Bool.and_eq_true, decide_eq_true_eq] at h
  exact h

theorem isLower_of_range {c : Char} (h1 : 97 ≤ c.toNat) (h2 : c.toNat ≤ 122) :
    c.isLower = true := by
  simp only [Char.isLower, Bool.and_eq_true, decide_eq_true_eq]
  exact ⟨h1, h2⟩

theorem toLower_of_upper {c : Char} (h : c.isUpper = true) :
    c.toLower = Char.ofNat (c.toNat + 32) := by
  obtain ⟨h1, h2⟩ := isUpper_range h
  rw [Char.toLower, if_pos ⟨h1, h2⟩]

theorem toLower_toNat_of_upper {c : Char} (h : c.isUpper = true) :
    (c.toLower).toNat = c.toNat + 32 := by
  obtain ⟨_, h2⟩ := isUpper_range h
  rw [toLower_of_upper h]
  exact toNat_ofNat_valid (by omega)

theorem isLower_toLower_of_upper {c : Char} (h : c.isUpper = true) :
    (c.toLower).isLower = true := by
  obtain ⟨h1, h2⟩ := isUpper_range h
  have ht := toLower_toNat_of_upper h
  exact isLower_of_range (by omega) (by omega)

theorem toLower_of_lower {c : Char} (h : c.isLower = true) : c.toLower = c := by
  obtain ⟨h1, _⟩ := isLower_range h
  rw [Char.toLower, if_neg (by omega)]

theorem toUpper_toLower_of_upper {c : Char} (h : c.isUpper = true) :
    (c.toLower).toUpper = c := by
  obtain ⟨h1, h2⟩ := isUpper_range h
  have ht := toLower_toNat_of_upper h
  rw [Char.toUpper, if_pos (by omega), ht]
  have hsub : c.toNat + 32 - 32 = c.toNat := by omega
  rw [hsub, Char.ofNat_toNat]

theorem isAlpha_cases {c : Char} (h : c.isAlpha = true) :
    c.isUpper = true ∨ c.isLower = true := by
  simpa [Char.isAlpha, Bool.or_eq_true] using h

theorem isAlpha_of_lower {c : Char} (h : c.isLower = true) : c.isAlpha = true := by
  simp [Char.isAlpha, h]

theorem toLower_isLower_of_alpha {c : Char} (h : c.isAlpha = true) :
    (c.toLower).isLower = true := by
  rcases isAlpha_cases h with hu | hl
  · exact isLower_toLower_of_upper hu
  · rw [toLower_of_lower hl]; exact hl

theorem lower_ne_space {c : Char} (h : c.isLower = true) : ¬c = ' ' :=
  fun he => absurd (he ▸ h) (by decide)

theorem lower_ne_under {c : Char} (h : c.isLower = true) : ¬c = '_' :=
  fun he => absurd (he ▸ h) (by decide)

theorem alpha_ne_under {c : Char} (h : c.isAlpha = true) : ¬c = '_' :=
  fun he => absurd (he ▸ h) (by decide)

/-! ## Word-level lemmas for the column-name round trip -/

theorem pyTitleGo_cons (c : Char) (rest : List Char) (b : Bool) :
    pyTitleGo (c :: rest) b =
      if c.isAlpha then (if b then c.toLower else c.toUpper) :: pyTitleGo rest true
      else c :: pyTitleGo rest false := rfl

theorem titleWord_alpha {w : List Char} (hw : titleWord w = true) :
    ∀ c ∈ w, c.isAlpha = true := by
  cases w with
  | nil => simp [titleWord] at hw
  | cons c t =>
    simp only [titleWord, Bool.and_eq_true, List.all_eq_true] at hw
    intro d hd
    rcases List.mem_cons.mp hd with h | h
    · subst h
      simp [Char.isAlpha, hw.1]
    · exact isAlpha_of_lower (hw.2 d h)

theorem map_toLower_id {t : List Char} (h : ∀ d ∈ t, d.isLower = true) :
    t.map Char.toLower = t := by
  induction t with
  | nil => rfl
  | cons d t ih =>
    rw [List.map_cons, toLower_of_lower (h d (List.mem_cons_self d t)),
      ih fun x hx => h x (List.mem_cons_of_mem d hx)]

theorem pyTitleGo_lower_tail {t : List Char} (h : ∀ d ∈ t, d.isLower = true)
    (rest : List Char) : pyTitleGo (t ++ rest) true = t ++ pyTitleGo rest true := by
  induction t with
  | nil => rfl
  | cons d t ih =>
    have hd := h d (List.mem_cons_self d t)
    rw [List.cons_append, pyTitleGo_cons, if_pos (isAlpha_of_lower hd)]
    show d.toLower :: pyTitleGo (t ++ rest) true = d :: (t ++ pyTitleGo rest true)
    rw [toLower_of_lower hd, ih fun x hx => h x (List.mem_cons_of_mem d hx)]

theorem pyTitleGo_word {w : List Char} (hw : titleWord w = true) (rest : List Char) :
    pyTitleGo (w.map Char.toLower ++ rest) false = w ++ pyTitleGo rest true := by
  cases w with
  | nil => simp [titleWord] at hw
  | cons c t =>
    simp only [titleWord, Bool.and_eq_true, List.all_eq_true] at hw
    obtain ⟨hc, ht⟩ := hw
    have halpha : (c.toLower).isAlpha = true := isAlpha_of_lower (isLower_toLower_of_upper hc)
    rw [List.map_cons, List.cons_append, pyTitleGo_cons, if_pos halpha]
    show (c.toLower).toUpper :: pyTitleGo (t.map Char.toLower ++ rest) true =
      c :: (t ++ pyTitleGo rest true)
    rw [toUpper_toLower_of_upper hc, map_toLower_id ht, pyTitleGo_lower_tail ht]

theorem map_sp_toLower_word {w : List Char} (hw : ∀ c ∈ w, c.isAlpha = true) :
    (w.map Char.toLower).map (fun c => if c = ' ' then '_' else c) = w.map Char.toLower := by
  induction w with
  | nil => rfl
  | cons c w ih =>
    have hne : ¬c.toLower = ' ' :=
      lower_ne_space (toLower_isLower_of_alpha (hw c (List.mem_cons_self c w)))
    rw [List.map_cons, List.map_cons, if_neg hne,
      ih fun x hx => hw x (List.mem_cons_of_mem c hx)]

theorem map_us_word {w : List Char} (hw : ∀ c ∈ w, c.isAlpha = true) :
    w.map (fun c => if c = '_' then ' ' else c) = w := by
  induction w with
  | nil => rfl
  | cons c w ih =>
    rw [List.map_cons, if_neg (alpha_ne_under (hw c (List.mem_cons_self c w))),
      ih fun x hx => hw x (List.mem_cons_of_mem c hx)]

/-- The column-name round trip at the character-list level. -/
theorem restore_standardize_data :
    ∀ ws : List (List Char), ws ≠ [] → (∀ w ∈ ws, titleWord w = true) →
      (pyTitleGo (((joinWords ws).map Char.toLower).map
          fun c => if c = ' ' then '_' else c) false).map
        (fun c => if c = '_' then ' ' else c) = joinWords ws := by
  intro ws
  induction ws with
  | nil => intro h; exact absurd rfl h
  | cons w ws ih =>
    intro _ hall
    have hw : titleWord w = true := hall w (List.mem_cons_self w ws)
    have halpha := titleWord_alpha hw
    cases ws with
    | nil =>
      show (pyTitleGo ((w.map Char.toLower).map fun c => if c = ' ' then '_' else c)
          false).map (fun c => if c = '_' then ' ' else c) = w
      rw [map_sp_toLower_word halpha, ← List.append_nil (w.map Char.toLower),
        pyTitleGo_word hw]
      show (w ++ pyTitleGo [] true).map (fun c => if c = '_' then ' ' else c) = w
      rw [show pyTitleGo [] true = [] from rfl, List.append_nil, map_us_word halpha]
    | cons x ws =>
      have hJ := ih (by simp) fun v hv => hall v (List.mem_cons_of_mem w hv)
      show (pyTitleGo (((w ++ ' ' :: joinWords (x :: ws)).map Char.toLower).map
          fun c => if c = ' ' then '_' else c) false).map
        (fun c => if c = '_' then ' ' else c) = w ++ ' ' :: joinWords (x :: ws)
      rw [List.map_append, List.map_cons, show Char.toLower ' ' = ' ' from by decide,
        List.map_append, List.map_cons, if_pos rfl, map_sp_toLower_word halpha,
        pyTitleGo_word hw]
      rw [pyTitleGo_cons, if_neg (by decide)]
      rw [List.map_append, List.map_cons, if_pos rfl, map_us_word halpha, hJ]

/-! ## The claims -/

/-- Claim C1, as stated, is false on the code: a sale line with an unknown
`product_id` is NOT excluded from every per-store aggregate.  At the concrete
one-line table whose only line references product `"P9"`, absent from the
product table, the line still contributes to `distinct_products["S1"]` and
`distinct_sales["S1"]` (both count 1), even though it is dropped from
`revenue["S1"]` (no entry at all). -/
theorem claim_C1_counterexample :
    (([⟨"P1", "Widget"⟩] : List Product).all fun p => ¬p.product_id = "P9") = true ∧
    List.lookup "S1" (distinct_products_df
      [⟨"C1", ⟨2024, 5, 10⟩, "S1", "P9", 1, 10⟩]) = some 1 ∧
    List.lookup "S1" (distinct_sales_df
      [⟨"C1", ⟨2024, 5, 10⟩, "S1", "P9", 1, 10⟩]) = some 1 ∧
    List.lookup "S1" (revenue_df
      [⟨"C1", ⟨2024, 5, 10⟩, "S1", "P9", 1, 10⟩] [⟨"P1", "Widget"⟩]) = none := by
  refine ⟨by decide, by decide, by decide, by decide⟩

/-- Claim C1 (amended): a sale line whose `product_id` is absent from the
product table is excluded from the revenue aggregate (dropping the line leaves
`revenue_df` unchanged), but it still contributes to the store's
`distinct_products` and `distinct_sales` counts, which are computed over ALL of
the store's lines; the store table is never consulted. -/
theorem claim_C1 (pre post : List SaleLine) (l : SaleLine) (ps : List Product)
    (h : ∀ p ∈ ps, ¬p.product_id = l.product_id) :
    revenue_df (pre ++ l :: post) ps = revenue_df (pre ++ post) ps ∧
    List.lookup l.store_id (distinct_products_df (pre ++ l :: post)) =
      some ((((pre ++ l :: post).filter fun x => x.store_id = l.store_id).map
        (·.product_id)).dedup.length) ∧
    List.lookup l.store_id (distinct_sales_df (pre ++ l :: post)) =
      some ((((pre ++ l :: post).filter fun x => x.store_id = l.store_id).map
        (·.sales_code)).dedup.length) ∧
    1 ≤ (((pre ++ l :: post).filter fun x => x.store_id = l.store_id).map
      (·.product_id)).dedup.length := by
  have hmem : l.store_id ∈ (pre ++ l :: post).map (·.store_id) :=
    List.mem_map.mpr ⟨l, List.mem_append.mpr (Or.inr (List.mem_cons_self l post)), rfl⟩
  have hfil : l ∈ (pre ++ l :: post).filter fun x => x.store_id = l.store_id :=
    List.mem_filter.mpr
      ⟨List.mem_append.mpr (Or.inr (List.mem_cons_self l post)), by simp⟩
  refine ⟨?_, ?_, ?_, ?_⟩
  · have hm : mergeProducts (pre ++ l :: post) ps = mergeProducts (pre ++ post) ps := by
      rw [mergeProducts_append, mergeProducts_cons_unmatched h, ← mergeProducts_append]
    simp only [revenue_df]
    rw [hm]
  · rw [lookup_distinct_products_df, if_pos hmem]
  · rw [lookup_distinct_sales_df, if_pos hmem]
  · have hpid : l.product_id ∈
        (((pre ++ l :: post).filter fun x => x.store_id = l.store_id).map
          (·.product_id)).dedup :=
      List.mem_dedup.mpr (List.mem_map.mpr ⟨l, hfil, rfl⟩)
    exact Nat.one_le_iff_ne_zero.mpr fun h0 =>
      (List.ne_nil_of_mem hpid) (List.eq_nil_of_length_eq_zero h0)

theorem claim_C1_witness :
    List.lookup "S1" (distinct_products_df
      [⟨"C1", ⟨2024, 5, 10⟩, "S1", "P9", 1, 10⟩]) = some 1 := by
  have h := claim_C1 [] [] ⟨"C1", ⟨2024, 5, 10⟩, "S1", "P9", 1, 10⟩ [⟨"P1", "Widget"⟩]
    (by decide)
  rw [show (([] : List SaleLine) ++ (⟨"C1", ⟨2024, 5, 10⟩, "S1", "P9", 1, 10⟩ : SaleLine) ::
    ([] : List SaleLine)) = [⟨"C1", ⟨2024, 5, 10⟩, "S1", "P9", 1, 10⟩] from rfl] at h
  rw [h.2.1]
  decide

/-- Claim C2, as stated, is false on the code: the revenue aggregate never
checks `store_id` against the store table.  With a store table holding only
`"S1"`, a sale line for the unknown store `"S2"` (quantity 2 at unit price 10,
known product) yields `revenue["S2"] = 20`, while the spec formula (summing
only over lines whose store is known) gives 0 for `"S2"`. -/
theorem claim_C2_counterexample :
    List.lookup "S2" (revenue_df [⟨"C1", ⟨2024, 5, 10⟩, "S2", "P1", 2, 10⟩]
      [⟨"P1", "Widget"⟩]) = some 20 ∧
    specRevenueC2 [⟨"C1", ⟨2024, 5, 10⟩, "S2", "P1", 2, 10⟩] [⟨"P1", "Widget"⟩]
      [⟨"S1", "Store One"⟩] "S2" = 0 ∧
    ¬List.lookup "S2" (revenue_df [⟨"C1", ⟨2024, 5, 10⟩, "S2", "P1", 2, 10⟩]
        [⟨"P1", "Widget"⟩]) =
      some (specRevenueC2 [⟨"C1", ⟨2024, 5, 10⟩, "S2", "P1", 2, 10⟩] [⟨"P1", "Widget"⟩]
        [⟨"S1", "Store One"⟩] "S2") := by
  norm_num [revenue_df, specRevenueC2, mergeProducts, groupKeys, strRel, strLeB,
    List.insertionSort, List.orderedInsert, List.dedup, List.lookup, List.filter,
    List.flatMap, List.any]
  rw [show (decide ("S1" = "S2")) = false from rfl]
  simp

/-- Claim C2 (amended): for every store key, the revenue aggregate has an entry
exactly when the store has some line matching a known `product_id`, and the
value is the sum of `quantity * unit_price` over exactly those of the store's
lines that match a known `product_id`; membership of the `store_id` in the
store table is never consulted. -/
theorem claim_C2 (sales : List SaleLine) (ps : List Product)
    (hnd : (ps.map (·.product_id)).Nodup) (s : String) :
    List.lookup s (revenue_df sales ps) =
      if (sales.any fun l => l.store_id = s && ps.any fun p => p.product_id = l.product_id) then
        some (((sales.filter fun l =>
            l.store_id = s && ps.any fun p => p.product_id = l.product_id).map fun l =>
          l.quantity * l.unit_price).sum)
      else none :=
  lookup_revenue_df sales ps hnd s

theorem claim_C2_witness :
    List.lookup "S2" (revenue_df [⟨"C1", ⟨2024, 5, 10⟩, "S2", "P1", 2, 10⟩]
      [⟨"P1", "Widget"⟩]) = some 20 := by
  have h := claim_C2 [⟨"C1", ⟨2024, 5, 10⟩, "S2", "P1", 2, 10⟩] [⟨"P1", "Widget"⟩]
    (by decide) "S2"
  rw [h]
  norm_num [List.filter, List.any]

/-- Claim C4, as stated, is false on the code: a store can have a sale line in
the window and still no `avg_ticket` value at all, because `avg_ticket` is
built on the product-joined revenue table.  Concretely, with one line for
store `"S1"` referencing the unknown product `"P9"`, the store has a sale line
but `avg_ticket_df` has no `"S1"` row. -/
theorem claim_C4_counterexample :
    "S1" ∈ ([⟨"C1", ⟨2024, 5, 10⟩, "S1", "P9", 1, 10⟩] : List SaleLine).map (·.store_id) ∧
    List.lookup "S1" (avg_ticket_df [⟨"C1", ⟨2024, 5, 10⟩, "S1", "P9", 1, 10⟩]
      [⟨"P1", "Widget"⟩]) = none := by
  refine ⟨by decide, by decide⟩

/-- Claim C4 (amended): for every store with at least one sale line in the
window matching a known `product_id`, `avg_ticket[store]` equals
`revenue[store]` divided by the number of distinct `sales_code` values over
ALL of the store's window lines; in particular two sale lines sharing one
`sales_code` divide the revenue by 1, not 2. -/
theorem claim_C4 (sales : List SaleLine) (ps : List Product)
    (hnd : (ps.map (·.product_id)).Nodup) (s : String)
    (hmatch : (sales.any fun l =>
      l.store_id = s && ps.any fun p => p.product_id = l.product_id) = true) :
    List.lookup s (avg_ticket_df sales ps) =
      some ((((sales.filter fun l =>
            l.store_id = s && ps.any fun p => p.product_id = l.product_id).map fun l =>
          l.quantity * l.unit_price).sum),
        (((sales.filter fun l => l.store_id = s).map (·.sales_code)).dedup.length),
        ((((sales.filter fun l =>
            l.store_id = s && ps.any fun p => p.product_id = l.product_id).map fun l =>
          l.quantity * l.unit_price).sum) /
          ((((sales.filter fun l => l.store_id = s).map (·.sales_code)).dedup.length : ℕ) : ℚ))) :=
  avg_ticket_value sales ps hnd s hmatch

theorem claim_C4_witness :
    List.lookup "S1" (avg_ticket_df
      [⟨"C1", ⟨2024, 5, 10⟩, "S1", "P1", 1, 10⟩, ⟨"C1", ⟨2024, 5, 10⟩, "S1", "P2", 1, 15⟩]
      [⟨"P1", "Widget"⟩, ⟨"P2", "Gadget"⟩]) = some (25, 1, 25) := by
  have h := claim_C4
    [⟨"C1", ⟨2024, 5, 10⟩, "S1", "P1", 1, 10⟩, ⟨"C1", ⟨2024, 5, 10⟩, "S1", "P2", 1, 15⟩]
    [⟨"P1", "Widget"⟩, ⟨"P2", "Gadget"⟩] (by decide) "S1" (by decide)
  rw [h]
  norm_num [List.filter, List.any, List.dedup]

/-- Claim C5: the combined per-store report is the inner join of the daily and
yearly KPI tables on `store_id`: looking up a store in the combined table
succeeds exactly when it is present in BOTH period tables (and then carries
both periods' fields), a store present in only one period is absent, and the
combined keys are duplicate-free (each store appears exactly once). -/
theorem claim_C5 (daily_sales yearly_sales : List SaleLine) (ps : List Product) (s : String) :
    List.lookup s (all_kpis_df daily_sales yearly_sales ps) =
      ((List.lookup s (kpis_df daily_sales ps)).bind fun a =>
        (List.lookup s (kpis_df yearly_sales ps)).map fun b => (a, b)) ∧
    ((all_kpis_df daily_sales yearly_sales ps).map Prod.fst).Nodup ∧
    (s ∈ (all_kpis_df daily_sales yearly_sales ps).map Prod.fst ↔
      s ∈ (kpis_df daily_sales ps).map Prod.fst ∧
        s ∈ (kpis_df yearly_sales ps).map Prod.fst) :=
  ⟨lookup_mergeInner (nodup_keys_kpis_df daily_sales ps) s,
    nodup_keys_mergeInner _ (nodup_keys_kpis_df daily_sales ps),
    mem_keys_mergeInner (nodup_keys_kpis_df daily_sales ps) s⟩

/-- Claim C6: in every row rendered by the KPI table renderer the scenario
marker is green exactly when `value >= target` and red exactly when
`value < target`, evaluated per row with no tolerance; in particular a value
equal to its target renders green. -/
theorem claim_C6 (kpis : List Kpi) (title : String) (is_yearly : Bool) (row : RenderedRow)
    (hrow : row ∈ format_kpi_table kpis title is_yearly) :
    (row.color = "green" ↔ row.target ≤ row.value) ∧
    (row.color = "red" ↔ row.value < row.target) := by
  simp only [format_kpi_table] at hrow
  rcases List.mem_map.mp hrow with ⟨k, _, hk⟩
  subst hk
  by_cases h : k.target ≤ k.value
  · constructor
    · simp [ge_iff_le, h]
    · simp [ge_iff_le, h, not_lt.mpr h]
  · have h' : k.value < k.target := not_le.mp h
    constructor
    · simp [ge_iff_le, h]
    · simp [ge_iff_le, h, h']

theorem claim_C6_witness :
    ((⟨"Revenue", 500, 500, "currency", "green"⟩ : RenderedRow) ∈
      format_kpi_table [⟨"Revenue", 500, 500, "currency"⟩, ⟨"Avg Ticket", 499, 500, "currency"⟩]
        "Daily Values" false) ∧
    ((⟨"Revenue", 500, 500, "currency", "green"⟩ : RenderedRow).color = "green" ↔
      (⟨"Revenue", 500, 500, "currency", "green"⟩ : RenderedRow).target ≤
        (⟨"Revenue", 500, 500, "currency", "green"⟩ : RenderedRow).value) ∧
    ((⟨"Avg Ticket", 499, 500, "currency", "red"⟩ : RenderedRow) ∈
      format_kpi_table [⟨"Revenue", 500, 500, "currency"⟩, ⟨"Avg Ticket", 499, 500, "currency"⟩]
        "Daily Values" false) ∧
    ((⟨"Avg Ticket", 499, 500, "currency", "red"⟩ : RenderedRow).color = "red" ↔
      (⟨"Avg Ticket", 499, 500, "currency", "red"⟩ : RenderedRow).value <
        (⟨"Avg Ticket", 499, 500, "currency", "red"⟩ : RenderedRow).target) :=
  ⟨by decide,
    (claim_C6 [⟨"Revenue", 500, 500, "currency"⟩, ⟨"Avg Ticket", 499, 500, "currency"⟩]
      "Daily Values" false ⟨"Revenue", 500, 500, "currency", "green"⟩ (by decide)).1,
    by decide,
    (claim_C6 [⟨"Revenue", 500, 500, "currency"⟩, ⟨"Avg Ticket", 499, 500, "currency"⟩]
      "Daily Values" false ⟨"Avg Ticket", 499, 500, "currency", "red"⟩ (by decide)).2⟩

/-- Claim C7: when the `EMAIL_FROM` configuration is absent from the
environment, the program aborts with the `ValueError` message at module level,
before any filtering, joining, grouping, exporting or sending: the run
produces the error and no events. -/
theorem claim_C7 (env : String → Option String) (inp : MainInputs) (yesterday : Date)
    (h : env "EMAIL_FROM" = none) :
    program_run env inp yesterday =
      Except.error "EMAIL_FROM environment variable is not set." := by
  simp [program_run, h]

theorem claim_C7_witness :
    program_run (fun _ => none) ⟨[], [], [], []⟩ ⟨2024, 5, 10⟩ =
      Except.error "EMAIL_FROM environment variable is not set." :=
  claim_C7 (fun _ => none) ⟨[], [], [], []⟩ ⟨2024, 5, 10⟩ rfl

/-- Claim C8: for every attachment path list handed to `send_email`, each path
for which `exists() && is_file()` holds is attached and not warned about, each
other path is skipped with the file-not-found warning and not attached, and
the send itself still takes place. -/
theorem claim_C8 (path_exists path_isfile : String → Bool)
    (email_from email_to subject email_body : String) (paths : List String)
    (preview : Bool) :
    (send_email path_exists path_isfile email_from email_to subject email_body
      (some paths) preview).delivered = true ∧
    ∀ p ∈ paths,
      ((path_exists p && path_isfile p) = true →
        p ∈ (send_email path_exists path_isfile email_from email_to subject email_body
            (some paths) preview).attached ∧
        p ∉ (send_email path_exists path_isfile email_from email_to subject email_body
            (some paths) preview).warnings) ∧
      ((path_exists p && path_isfile p) = false →
        p ∉ (send_email path_exists path_isfile email_from email_to subject email_body
            (some paths) preview).attached ∧
        p ∈ (send_email path_exists path_isfile email_from email_to subject email_body
            (some paths) preview).warnings) := by
  refine ⟨rfl, fun p hp => ⟨fun hgood => ⟨?_, ?_⟩, fun hbad => ⟨?_, ?_⟩⟩⟩
  · exact List.mem_filter.mpr ⟨hp, hgood⟩
  · intro hw
    have := (List.mem_filter.mp hw).2
    rw [hgood] at this
    simp at this
  · intro ha
    have := (List.mem_filter.mp ha).2
    rw [hbad] at this
    simp at this
  · exact List.mem_filter.mpr ⟨hp, by rw [hbad]; rfl⟩

theorem claim_C8_witness :
    (send_email (fun p => p = "have.xlsx") (fun p => p = "have.xlsx") "board@corp"
      "boss@corp" "Rankings" "body" (some ["have.xlsx", "missing.xlsx"]) false).delivered =
      true ∧
    "have.xlsx" ∈ (send_email (fun p => p = "have.xlsx") (fun p => p = "have.xlsx")
      "board@corp" "boss@corp" "Rankings" "body"
      (some ["have.xlsx", "missing.xlsx"]) false).attached ∧
    "missing.xlsx" ∈ (send_email (fun p => p = "have.xlsx") (fun p => p = "have.xlsx")
      "board@corp" "boss@corp" "Rankings" "body"
      (some ["have.xlsx", "missing.xlsx"]) false).warnings := by
  have h := claim_C8 (fun p => p = "have.xlsx") (fun p => p = "have.xlsx") "board@corp"
    "boss@corp" "Rankings" "body" ["have.xlsx", "missing.xlsx"] false
  exact ⟨h.1, ((h.2 "have.xlsx" (by decide)).1 (by decide)).1,
    ((h.2 "missing.xlsx" (by decide)).2 (by decide)).2⟩

/-- Claim C9, as stated, is false on the code: `re.sub` replaces pattern
occurrences anywhere INSIDE an address, so the address
`xemail+t@address.com` — which is not of the form `email+<tag>@address.com` —
is nevertheless changed (to `xme+t@gmail.com` under the override
`me@gmail.com`) instead of being left unchanged. -/
theorem claim_C9_counterexample :
    override_email "me@gmail.com" "xemail+t@address.com" = "xme+t@gmail.com" ∧
    ¬("xme+t@gmail.com" : String) = "xemail+t@address.com" := by
  refine ⟨by decide, by decide⟩

/-- Claim C9 (amended): the override substitution rewrites every OCCURRENCE of
`email+<tag>@address.com` inside a recipient address into
`<override-local>+<tag>@<override-domain>` (local part and domain split from
the configured override address at its first `'@'`), preserving the tag; an
address in which the pattern occurs nowhere is left unchanged, and an address
that is exactly one pattern instance is rewritten exactly as the original
claim describes. -/
theorem claim_C9 :
    (∀ email_to s : String,
      hasEmailPattern s.data = false → override_email email_to s = s) ∧
    (∀ (email_to : String) (tag : List Char), '@' ∉ tag → '\n' ∉ tag →
      override_email email_to ⟨headPat ++ (tag ++ suffixPat)⟩ =
        ⟨(pySplit '@' email_to.data).getD 0 [] ++
          '+' :: (tag ++ '@' :: (pySplit '@' email_to.data).getD 1 [])⟩) :=
  ⟨override_email_no_match, override_email_exact⟩

theorem claim_C9_witness :
    hasEmailPattern ("bob@gmail.com" : String).data = false ∧
    override_email "me@gmail.com" "bob@gmail.com" = "bob@gmail.com" ∧
    (⟨headPat ++ (("boss" : String).data ++ suffixPat)⟩ : String) =
      "email+boss@address.com" ∧
    override_email "me@gmail.com" ⟨headPat ++ (("boss" : String).data ++ suffixPat)⟩ =
      ⟨(pySplit '@' ("me@gmail.com" : String).data).getD 0 [] ++
        '+' :: (("boss" : String).data ++ '@' ::
          (pySplit '@' ("me@gmail.com" : String).data).getD 1 [])⟩ ∧
    (⟨(pySplit '@' ("me@gmail.com" : String).data).getD 0 [] ++
      '+' :: (("boss" : String).data ++ '@' ::
        (pySplit '@' ("me@gmail.com" : String).data).getD 1 [])⟩ : String) =
      "me+boss@gmail.com" :=
  ⟨by decide, claim_C9.1 "me@gmail.com" "bob@gmail.com" (by decide), by decide,
    claim_C9.2 "me@gmail.com" ("boss" : String).data (by decide) (by decide), by decide⟩

/-- Claim C10: for every column name made of space-separated title-case
alphabetic words, `restore_column_names` undoes `standardize_column_names`:
restoring the standardised name gives back the original. -/
theorem claim_C10 (ws : List (List Char)) (hne : ws ≠ [])
    (hall : ∀ w ∈ ws, titleWord w = true) :
    restore_column_names (standardize_column_names ⟨joinWords ws⟩) = ⟨joinWords ws⟩ := by
  have h := restore_standardize_data ws hne hall
  show (⟨(pyTitleGo (((joinWords ws).map Char.toLower).map
      fun c => if c = ' ' then '_' else c) false).map
    (fun c => if c = '_' then ' ' else c)⟩ : String) = ⟨joinWords ws⟩
  rw [h]

theorem claim_C10_witness :
    joinWords [['S', 'a', 'l', 'e', 's'], ['C', 'o', 'd', 'e']] =
      ("Sales Code" : String).data ∧
    restore_column_names (standardize_column_names
      ⟨joinWords [['S', 'a', 'l', 'e', 's'], ['C', 'o', 'd', 'e']]⟩) =
      ⟨joinWords [['S', 'a', 'l', 'e', 's'], ['C', 'o', 'd', 'e']]⟩ :=
  ⟨by decide, claim_C10 [['S', 'a', 'l', 'e', 's'], ['C', 'o', 'd', 'e']] (by decide)
    (by decide)⟩

end IndicatorAutomation
